import Mathlib

/-!
Shallow embedding of the `command-ext` crate: the `CommandWrap` wrapping
protocol (`src/wrap/mod.rs`), the `CommandExtCheck` outcome checker
(`src/check/mod.rs` with `src/error/mod.rs`), and the three severity-filtered
observers (`src/log/mod.rs`, `src/print/mod.rs`, `src/trace/mod.rs`).

The platform collaborator (`std::process::Command` and process execution) is
modelled as explicit data plus oracle functions: a terminal action takes the
platform's answer as a function argument, since the OS itself is outside the
repository.
-/

namespace CommandExt

/-- Models `log::Level`, the five severities accepted by the logging sink. -/
inductive Level
  | error
  | warn
  | info
  | debug
  | trace
deriving DecidableEq, Repr

/-- Models `tracing::Level`, the five severities accepted by the tracing sink. -/
inductive TraceLevel
  | TRACE
  | DEBUG
  | INFO
  | WARN
  | ERROR
deriving DecidableEq, Repr

/-- Models `std::process::Stdio`: a stdio redirection target. -/
inductive Stdio
  | inherit
  | null
  | piped
  | fd (n : Nat)
deriving DecidableEq, Repr

/-- Models `std::io::Error`, the platform-level failure carried by a failed
terminal action (e.g. executable not found). -/
structure IOError where
  code : Nat
  message : String
deriving DecidableEq, Repr

/-- Models `std::process::Child`, the live handle returned by `spawn`. -/
structure Child where
  id : Nat
deriving DecidableEq, Repr

/-- Models `std::process::ExitStatus`: the platform's success predicate
(`ExitStatus::success`) together with the raw code. -/
structure ExitStatus where
  success : Bool
  code : Int
deriving DecidableEq, Repr

/-- Models the `Display` implementation for `ExitStatus` used by the
observers' `status: {}` records. -/
def ExitStatus.display (s : ExitStatus) : String :=
  "exit status: " ++ toString s.code

/-- Models `std::process::Output`: exit status plus captured stdout and
stderr byte streams. -/
structure Output where
  status : ExitStatus
  stdout : List Nat
  stderr : List Nat
deriving DecidableEq, Repr

/-- Models the configuration state of `std::process::Command` (the platform
collaborator listed in the spec's external interfaces): program path,
argument list, the explicit environment map (a `None` value means a key
explicitly removed via `env_remove`), the env-cleared flag set by
`env_clear`, the optional working directory, and the three stdio targets.
The environment map is kept sorted by key, modelling the `BTreeMap`
documented for `Command::get_envs`. -/
structure Command where
  program : String
  argv : List String
  envCleared : Bool
  envVars : List (String × Option String)
  cwd : Option String
  stdinCfg : Option Stdio
  stdoutCfg : Option Stdio
  stderrCfg : Option Stdio
deriving DecidableEq, Repr

/-- Models `Command::new`: program set, everything else empty/inherited. -/
def Command.new (p : String) : Command :=
  ⟨p, [], false, [], none, none, none, none⟩

/-- Sorted-by-key insertion into the environment map, replacing any existing
entry for the key: models `BTreeMap::insert` as used by `Command::env` and
`Command::env_remove`. -/
def envInsert : List (String × Option String) → String → Option String →
    List (String × Option String)
  | [], k, v => [(k, v)]
  | (k1, v1) :: rest, k, v =>
    if k < k1 then (k, v) :: (k1, v1) :: rest
    else if k = k1 then (k, v) :: rest
    else (k1, v1) :: envInsert rest k v

/-- Deletion from the environment map: models `BTreeMap::remove`, used by
`Command::env_remove` after `env_clear`. -/
def envDelete : List (String × Option String) → String →
    List (String × Option String)
  | [], _ => []
  | (k1, v1) :: rest, k =>
    if k = k1 then envDelete rest k else (k1, v1) :: envDelete rest k

/-- Association lookup in the environment map, as observed through
`Command::get_envs`: `none` = key absent, `some none` = explicitly removed,
`some (some v)` = explicitly set to `v`. -/
def envLookup : List (String × Option String) → String → Option (Option String)
  | [], _ => none
  | (k1, v1) :: rest, k => if k1 = k then some v1 else envLookup rest k

/-- Models `Command::arg`: appends one argument. -/
def Command.argOp (c : Command) (a : String) : Command :=
  { c with argv := c.argv ++ [a] }

/-- Models `Command::args`: appends each argument in order. -/
def Command.argsOp (c : Command) (as : List String) : Command :=
  { c with argv := c.argv ++ as }

/-- Models `Command::env`: inserts or updates one explicit mapping. -/
def Command.envOp (c : Command) (k v : String) : Command :=
  { c with envVars := envInsert c.envVars k (some v) }

/-- Models `Command::envs`: inserts or updates each mapping in order. -/
def Command.envsOp (c : Command) (kvs : List (String × String)) : Command :=
  kvs.foldl (fun c2 kv => c2.envOp kv.1 kv.2) c

/-- Models `Command::env_remove`: after `env_clear` the key is simply dropped
from the map; otherwise an explicit `None` marker is stored, so `get_envs`
reads the key back as removed. This follows the behavior documented in the
doc comments of `CommandWrap::env_remove`. -/
def Command.envRemoveOp (c : Command) (k : String) : Command :=
  if c.envCleared then { c with envVars := envDelete c.envVars k }
  else { c with envVars := envInsert c.envVars k none }

/-- Models `Command::env_clear`: drops all explicit mappings and disables
inheritance, per the doc comments of `CommandWrap::env_clear`. -/
def Command.envClearOp (c : Command) : Command :=
  { c with envCleared := true, envVars := [] }

/-- Models `Command::current_dir`. -/
def Command.currentDirOp (c : Command) (d : String) : Command :=
  { c with cwd := some d }

/-- Models `Command::stdin`. -/
def Command.stdinOp (c : Command) (s : Stdio) : Command :=
  { c with stdinCfg := some s }

/-- Models `Command::stdout`. -/
def Command.stdoutOp (c : Command) (s : Stdio) : Command :=
  { c with stdoutCfg := some s }

/-- Models `Command::stderr`. -/
def Command.stderrOp (c : Command) (s : Stdio) : Command :=
  { c with stderrCfg := some s }

/-- Models `Command::get_program`. -/
def Command.get_program (c : Command) : String := c.program

/-- Models `Command::get_args`. -/
def Command.get_args (c : Command) : List String := c.argv

/-- Models `Command::get_envs`. -/
def Command.get_envs (c : Command) : List (String × Option String) := c.envVars

/-- Models `Command::get_current_dir`. -/
def Command.get_current_dir (c : Command) : Option String := c.cwd

/-- The Unicode replacement character emitted by lossy UTF-8 decoding. -/
def replChar : Char := Char.ofNat 0xFFFD

/-- Is the byte a UTF-8 continuation byte? -/
def isCont (b : Nat) : Bool := decide (0x80 ≤ b) && decide (b ≤ 0xBF)

/-- One pass of lossy UTF-8 decoding with explicit fuel (the fuel is the byte
count; every step consumes at least one byte, so the fuel never runs out on
the intended call). Invalid sequences decode to the replacement character
following the maximal-subpart convention of `String::from_utf8_lossy`. -/
def lossyDecodeAux : Nat → List Nat → List Char
  | 0, _ => []
  | _ + 1, [] => []
  | fuel + 1, b :: rest =>
    if b < 0x80 then Char.ofNat b :: lossyDecodeAux fuel rest
    else if b < 0xC2 then replChar :: lossyDecodeAux fuel rest
    else if b < 0xE0 then
      match rest with
      | [] => [replChar]
      | c1 :: rest1 =>
        if isCont c1 then
          Char.ofNat ((b - 0xC0) * 64 + (c1 - 0x80)) :: lossyDecodeAux fuel rest1
        else replChar :: lossyDecodeAux fuel rest
    else if b < 0xF0 then
      match rest with
      | [] => [replChar]
      | c1 :: rest1 =>
        if (if b = 0xE0 then 0xA0 else 0x80) ≤ c1 ∧
            c1 ≤ (if b = 0xED then 0x9F else 0xBF) then
          match rest1 with
          | [] => [replChar]
          | c2 :: rest2 =>
            if isCont c2 then
              Char.ofNat ((b - 0xE0) * 4096 + (c1 - 0x80) * 64 + (c2 - 0x80)) ::
                lossyDecodeAux fuel rest2
            else replChar :: lossyDecodeAux fuel rest1
        else replChar :: lossyDecodeAux fuel rest
    else if b < 0xF5 then
      match rest with
      | [] => [replChar]
      | c1 :: rest1 =>
        if (if b = 0xF0 then 0x90 else 0x80) ≤ c1 ∧
            c1 ≤ (if b = 0xF4 then 0x8F else 0xBF) then
          match rest1 with
          | [] => [replChar]
          | c2 :: rest2 =>
            if isCont c2 then
              match rest2 with
              | [] => [replChar]
              | c3 :: rest3 =>
                if isCont c3 then
                  Char.ofNat ((b - 0xF0) * 262144 + (c1 - 0x80) * 4096 +
                      (c2 - 0x80) * 64 + (c3 - 0x80)) :: lossyDecodeAux fuel rest3
                else replChar :: lossyDecodeAux fuel rest2
            else replChar :: lossyDecodeAux fuel rest1
        else replChar :: lossyDecodeAux fuel rest
    else replChar :: lossyDecodeAux fuel rest

/-- Models `String::from_utf8_lossy` on a captured byte stream. -/
def fromUtf8Lossy (bs : List Nat) : String :=
  ⟨lossyDecodeAux bs.length bs⟩

/-- Models an implementation of the `CommandWrap` trait: one field per
overridable hook. A hook receives the wrapper-specific state and the wrapped
`Command` (in Rust the hook takes `&mut self`, through which it can read the
command via `HasCommand::command` and also mutate it), plus the builder
method's own arguments, and returns the updated state and command. Each
default value is the trait's default no-op body. -/
structure HookImpl (σ : Type) where
  onArg : σ → Command → String → σ × Command := fun s c _ => (s, c)
  onArgs : σ → Command → List String → σ × Command := fun s c _ => (s, c)
  onEnv : σ → Command → String → String → σ × Command := fun s c _ _ => (s, c)
  onEnvs : σ → Command → List (String × String) → σ × Command := fun s c _ => (s, c)
  onEnvRemove : σ → Command → String → σ × Command := fun s c _ => (s, c)
  onEnvClear : σ → Command → σ × Command := fun s c => (s, c)
  onCurrentDir : σ → Command → String → σ × Command := fun s c _ => (s, c)
  onStdin : σ → Command → Stdio → σ × Command := fun s c _ => (s, c)
  onStdout : σ → Command → Stdio → σ × Command := fun s c _ => (s, c)
  onStderr : σ → Command → Stdio → σ × Command := fun s c _ => (s, c)
  onSpawn : σ → Command → σ × Command := fun s c => (s, c)
  onOutput : σ → Command → σ × Command := fun s c => (s, c)
  onStatus : σ → Command → σ × Command := fun s c => (s, c)
  afterSpawn : σ → Command → Except IOError Child → σ × Command := fun s c _ => (s, c)
  afterOutput : σ → Command → Except IOError Output → σ × Command := fun s c _ => (s, c)
  afterStatus : σ → Command → Except IOError ExitStatus → σ × Command := fun s c _ => (s, c)

/-- The wrapper that overrides no hook: every hook keeps the trait's default
no-op body. -/
def defaultHooks (σ : Type) : HookImpl σ := {}

/-- A wrapper instance: wrapper-specific state plus the exclusively owned
`Command` it exposes through `HasCommand`. -/
structure Wrapper (σ : Type) where
  state : σ
  cmd : Command

namespace CommandWrap

/-- Models `CommandWrap::arg` (src/wrap/mod.rs): `self.on_arg(&arg);
self.command_mut().arg(arg); self`. -/
def arg (H : HookImpl σ) (w : Wrapper σ) (a : String) : Wrapper σ :=
  let sc := H.onArg w.state w.cmd a
  ⟨sc.1, sc.2.argOp a⟩

/-- Models `CommandWrap::args` (src/wrap/mod.rs): the source body is
`self.command_mut().args(args); self` — it does not invoke `on_args`. -/
def args (_H : HookImpl σ) (w : Wrapper σ) (as : List String) : Wrapper σ :=
  ⟨w.state, w.cmd.argsOp as⟩

/-- Models `CommandWrap::env`: `self.on_env(&key, &val);
self.command_mut().env(key, val); self`. -/
def env (H : HookImpl σ) (w : Wrapper σ) (k v : String) : Wrapper σ :=
  let sc := H.onEnv w.state w.cmd k v
  ⟨sc.1, sc.2.envOp k v⟩

/-- Models `CommandWrap::envs`: collects the pairs, fires `on_envs` with
them, then applies `Command::envs`. -/
def envs (H : HookImpl σ) (w : Wrapper σ) (kvs : List (String × String)) :
    Wrapper σ :=
  let sc := H.onEnvs w.state w.cmd kvs
  ⟨sc.1, sc.2.envsOp kvs⟩

/-- Models `CommandWrap::env_remove`: `self.on_env_remove(&key);
self.command_mut().env_remove(key); self`. -/
def env_remove (H : HookImpl σ) (w : Wrapper σ) (k : String) : Wrapper σ :=
  let sc := H.onEnvRemove w.state w.cmd k
  ⟨sc.1, sc.2.envRemoveOp k⟩

/-- Models `CommandWrap::env_clear`: `self.on_env_clear();
self.command_mut().env_clear(); self`. -/
def env_clear (H : HookImpl σ) (w : Wrapper σ) : Wrapper σ :=
  let sc := H.onEnvClear w.state w.cmd
  ⟨sc.1, sc.2.envClearOp⟩

/-- Models `CommandWrap::current_dir`: `self.on_current_dir(&dir);
self.command_mut().current_dir(dir); self`. -/
def current_dir (H : HookImpl σ) (w : Wrapper σ) (d : String) : Wrapper σ :=
  let sc := H.onCurrentDir w.state w.cmd d
  ⟨sc.1, sc.2.currentDirOp d⟩

/-- Models `CommandWrap::stdin`: converts the target, fires `on_stdin(&cfg)`,
then applies `Command::stdin`. -/
def stdin (H : HookImpl σ) (w : Wrapper σ) (cfg : Stdio) : Wrapper σ :=
  let sc := H.onStdin w.state w.cmd cfg
  ⟨sc.1, sc.2.stdinOp cfg⟩

/-- Models `CommandWrap::stdout`: converts the target, fires
`on_stdout(&cfg)`, then applies `Command::stdout`. -/
def stdout (H : HookImpl σ) (w : Wrapper σ) (cfg : Stdio) : Wrapper σ :=
  let sc := H.onStdout w.state w.cmd cfg
  ⟨sc.1, sc.2.stdoutOp cfg⟩

/-- Models `CommandWrap::stderr`: converts the target, fires
`on_stderr(&cfg)`, then applies `Command::stderr`. -/
def stderr (H : HookImpl σ) (w : Wrapper σ) (cfg : Stdio) : Wrapper σ :=
  let sc := H.onStderr w.state w.cmd cfg
  ⟨sc.1, sc.2.stderrOp cfg⟩

/-- Models `CommandWrap::spawn`: `self.on_spawn(); let child =
self.command_mut().spawn(); self.after_spawn(&child); child`. The platform's
process-creation primitive is the oracle `plat`. -/
def spawn (H : HookImpl σ) (plat : Command → Except IOError Child)
    (w : Wrapper σ) : Wrapper σ × Except IOError Child :=
  let sc1 := H.onSpawn w.state w.cmd
  let child := plat sc1.2
  let sc2 := H.afterSpawn sc1.1 sc1.2 child
  (⟨sc2.1, sc2.2⟩, child)

/-- Models `CommandWrap::output`: `self.on_output(); let output =
self.command_mut().output(); self.after_output(&output); output`. The
platform's capture-output primitive is the oracle `plat`. -/
def output (H : HookImpl σ) (plat : Command → Except IOError Output)
    (w : Wrapper σ) : Wrapper σ × Except IOError Output :=
  let sc1 := H.onOutput w.state w.cmd
  let res := plat sc1.2
  let sc2 := H.afterOutput sc1.1 sc1.2 res
  (⟨sc2.1, sc2.2⟩, res)

/-- Models `CommandWrap::status`: `self.on_status(); let status =
self.command_mut().status(); self.after_status(&status); status`. The
platform's wait-for-status primitive is the oracle `plat`. -/
def status (H : HookImpl σ) (plat : Command → Except IOError ExitStatus)
    (w : Wrapper σ) : Wrapper σ × Except IOError ExitStatus :=
  let sc1 := H.onStatus w.state w.cmd
  let res := plat sc1.2
  let sc2 := H.afterStatus sc1.1 sc1.2 res
  (⟨sc2.1, sc2.2⟩, res)

/-- Models `CommandWrap::get_program`, delegating to the owned command. -/
def get_program (w : Wrapper σ) : String := w.cmd.get_program

/-- Models `CommandWrap::get_args`, delegating to the owned command. -/
def get_args (w : Wrapper σ) : List String := w.cmd.get_args

/-- Models `CommandWrap::get_envs`, delegating to the owned command. -/
def get_envs (w : Wrapper σ) : List (String × Option String) := w.cmd.get_envs

/-- Models `CommandWrap::get_current_dir`, delegating to the owned command. -/
def get_current_dir (w : Wrapper σ) : Option String := w.cmd.get_current_dir

end CommandWrap

/-- A record of one pre-hook invocation: which hook fired, the command state
the hook could observe through the `HasCommand` accessor at that moment, and
the arguments it was given. -/
inductive HookCall
  | onArg (observed : Command) (a : String)
  | onArgs (observed : Command) (as : List String)
  | onEnv (observed : Command) (k v : String)
  | onEnvs (observed : Command) (kvs : List (String × String))
  | onEnvRemove (observed : Command) (k : String)
  | onEnvClear (observed : Command)
  | onCurrentDir (observed : Command) (d : String)
  | onStdin (observed : Command) (cfg : Stdio)
  | onStdout (observed : Command) (cfg : Stdio)
  | onStderr (observed : Command) (cfg : Stdio)
  | onSpawn (observed : Command)
  | onOutput (observed : Command)
  | onStatus (observed : Command)
deriving DecidableEq, Repr

/-- The recording wrapper: every pre-hook appends a `HookCall` describing
exactly what it was invoked with, and mutates nothing. Used to settle the
claims about which hooks fire and what state they observe. -/
def obsHooks : HookImpl (List HookCall) where
  onArg := fun s c a => (s ++ [.onArg c a], c)
  onArgs := fun s c as => (s ++ [.onArgs c as], c)
  onEnv := fun s c k v => (s ++ [.onEnv c k v], c)
  onEnvs := fun s c kvs => (s ++ [.onEnvs c kvs], c)
  onEnvRemove := fun s c k => (s ++ [.onEnvRemove c k], c)
  onEnvClear := fun s c => (s ++ [.onEnvClear c], c)
  onCurrentDir := fun s c d => (s ++ [.onCurrentDir c d], c)
  onStdin := fun s c cfg => (s ++ [.onStdin c cfg], c)
  onStdout := fun s c cfg => (s ++ [.onStdout c cfg], c)
  onStderr := fun s c cfg => (s ++ [.onStderr c cfg], c)
  onSpawn := fun s c => (s ++ [.onSpawn c], c)
  onOutput := fun s c => (s ++ [.onOutput c], c)
  onStatus := fun s c => (s ++ [.onStatus c], c)

/-- One builder-method call of the wrapping protocol, as data. -/
inductive BuilderOp
  | arg (a : String)
  | args (as : List String)
  | env (k v : String)
  | envs (kvs : List (String × String))
  | env_remove (k : String)
  | env_clear
  | current_dir (d : String)
  | stdin (cfg : Stdio)
  | stdout (cfg : Stdio)
  | stderr (cfg : Stdio)
deriving DecidableEq, Repr

/-- Applies one builder operation directly to the platform primitive,
bypassing the wrapping protocol. -/
def applyOp (c : Command) : BuilderOp → Command
  | .arg a => c.argOp a
  | .args as => c.argsOp as
  | .env k v => c.envOp k v
  | .envs kvs => c.envsOp kvs
  | .env_remove k => c.envRemoveOp k
  | .env_clear => c.envClearOp
  | .current_dir d => c.currentDirOp d
  | .stdin cfg => c.stdinOp cfg
  | .stdout cfg => c.stdoutOp cfg
  | .stderr cfg => c.stderrOp cfg

/-- Replays a configuration sequence directly on the platform primitive. -/
def applyOps (c : Command) (ops : List BuilderOp) : Command :=
  ops.foldl applyOp c

/-- Dispatches one builder operation through the wrapping protocol. -/
def runOp (H : HookImpl σ) (w : Wrapper σ) : BuilderOp → Wrapper σ
  | .arg a => CommandWrap.arg H w a
  | .args as => CommandWrap.args H w as
  | .env k v => CommandWrap.env H w k v
  | .envs kvs => CommandWrap.envs H w kvs
  | .env_remove k => CommandWrap.env_remove H w k
  | .env_clear => CommandWrap.env_clear H w
  | .current_dir d => CommandWrap.current_dir H w d
  | .stdin cfg => CommandWrap.stdin H w cfg
  | .stdout cfg => CommandWrap.stdout H w cfg
  | .stderr cfg => CommandWrap.stderr H w cfg

/-- Replays a configuration sequence through the wrapping protocol. -/
def runOps (H : HookImpl σ) (w : Wrapper σ) (ops : List BuilderOp) : Wrapper σ :=
  ops.foldl (runOp H) w

/-- Models `CommandExtError` (src/error/mod.rs): either the check
classification carrying status and decoded streams, or a wrapped platform
error. -/
inductive CommandExtError
  | Check (status : ExitStatus) (stdout stderr : String)
  | StdIoError (e : IOError)
deriving DecidableEq, Repr

/-- Models `CommandExtCheck::check` for `Command` (src/check/mod.rs):
`self.output().map_err(CommandExtError::from).and_then(|r|
r.status.success().then_some(r.clone()).ok_or_else(|| CommandExtError::Check
{ status, stdout: lossy, stderr: lossy }))`. The capture-output terminal
action is the oracle `plat`. -/
def check (plat : Command → Except IOError Output) (c : Command) :
    Except CommandExtError Output :=
  match plat c with
  | .error e => .error (.StdIoError e)
  | .ok r =>
    if r.status.success then .ok r
    else .error (.Check r.status (fromUtf8Lossy r.stdout) (fromUtf8Lossy r.stderr))

/-- Which branch of an observer emitted a record. Each branch of
`log_before`/`print_before`/`trace_before` and of the `after_*` hooks formats
a distinct `channel:`-prefixed line; the tag names that branch. -/
inductive Channel
  | args
  | envs
  | current_dir
  | status
  | stdout
  | stderr
deriving DecidableEq, Repr

/-- One record sent to the logging sink: severity plus formatted message,
tagged with the emitting channel. -/
structure LogRec where
  channel : Channel
  level : Level
  message : String
deriving DecidableEq, Repr

/-- One line sent to the print stream, tagged with the emitting channel. -/
structure PrintRec where
  channel : Channel
  message : String
deriving DecidableEq, Repr

/-- One event sent to the tracing sink: severity plus formatted message,
tagged with the emitting channel. -/
structure TraceRec where
  channel : Channel
  level : TraceLevel
  message : String
deriving DecidableEq, Repr

/-- Keeps the records of one channel, in order. -/
def logOnChannel (ch : Channel) (rs : List LogRec) : List LogRec :=
  rs.filter (fun r => decide (r.channel = ch))

/-- Keeps the records of one channel, in order. -/
def printOnChannel (ch : Channel) (rs : List PrintRec) : List PrintRec :=
  rs.filter (fun r => decide (r.channel = ch))

/-- Keeps the records of one channel, in order. -/
def traceOnChannel (ch : Channel) (rs : List TraceRec) : List TraceRec :=
  rs.filter (fun r => decide (r.channel = ch))

/-- Models `Vec::join` with a single-space separator, as used on the
collected argument list by all three observers. -/
def joinSpace : List String → String
  | [] => ""
  | [a] => a
  | a :: b :: rest => a ++ " " ++ joinSpace (b :: rest)

/-- Models the per-channel severity configuration of `CommandLog`
(src/log/mod.rs); `none` is the builder default (channel disabled). -/
structure CommandLog where
  args : Option Level := none
  envs : Option Level := none
  current_dir : Option Level := none
  status : Option Level := none
  stdout : Option Level := none
  stderr : Option Level := none
deriving DecidableEq, Repr

/-- Models `CommandLog::log_before`: for each enabled pre-execution channel,
emit the program plus space-joined arguments, one `key=value` line per
explicitly-set environment pair (a removed value prints via
`unwrap_or_default` as empty), and the working directory (or empty). -/
def CommandLog.log_before (l : CommandLog) (c : Command) : List LogRec :=
  (match l.args with
   | some lv => [⟨Channel.args, lv, "args: " ++ c.get_program ++ " " ++ joinSpace c.get_args⟩]
   | none => []) ++
  (match l.envs with
   | some lv => c.get_envs.map (fun kv =>
       ⟨Channel.envs, lv, "envs: " ++ kv.1 ++ "=" ++ kv.2.getD ""⟩)
   | none => []) ++
  (match l.current_dir with
   | some lv => [⟨Channel.current_dir, lv, "current_dir: " ++ c.get_current_dir.getD ""⟩]
   | none => [])

/-- Models `CommandLog::after_output`: nothing on a platform error; on
success, the status line if enabled, then stdout and stderr each trimmed and
suppressed when empty after trimming. -/
def CommandLog.after_output (l : CommandLog) (r : Except IOError Output) :
    List LogRec :=
  match r with
  | .error _ => []
  | .ok o =>
    (match l.status with
     | some lv => [⟨Channel.status, lv, "status: " ++ o.status.display⟩]
     | none => []) ++
    (match l.stdout with
     | some lv =>
       if (fromUtf8Lossy o.stdout).trim = "" then []
       else [⟨Channel.stdout, lv, "stdout: " ++ (fromUtf8Lossy o.stdout).trim⟩]
     | none => []) ++
    (match l.stderr with
     | some lv =>
       if (fromUtf8Lossy o.stderr).trim = "" then []
       else [⟨Channel.stderr, lv, "stderr: " ++ (fromUtf8Lossy o.stderr).trim⟩]
     | none => [])

/-- Models `CommandLog::after_status`: nothing on a platform error; on
success, the status line if enabled. -/
def CommandLog.after_status (l : CommandLog) (r : Except IOError ExitStatus) :
    List LogRec :=
  match r with
  | .error _ => []
  | .ok st =>
    match l.status with
    | some lv => [⟨Channel.status, lv, "status: " ++ st.display⟩]
    | none => []

/-- The `CommandWrap` implementation of `CommandLog`: `on_spawn`, `on_output`
and `on_status` each run `log_before`; `after_output` and `after_status`
emit the post-execution records; every other hook keeps its default. The
wrapper state is the stream of records sent to the sink. -/
def logHooks (l : CommandLog) : HookImpl (List LogRec) where
  onSpawn := fun s c => (s ++ l.log_before c, c)
  onOutput := fun s c => (s ++ l.log_before c, c)
  onStatus := fun s c => (s ++ l.log_before c, c)
  afterOutput := fun s c r => (s ++ l.after_output r, c)
  afterStatus := fun s c r => (s ++ l.after_status r, c)

/-- Models the per-channel boolean configuration of `CommandPrint`
(src/print/mod.rs); `false` is the builder default (channel disabled). -/
structure CommandPrint where
  args : Bool := false
  envs : Bool := false
  current_dir : Bool := false
  status : Bool := false
  stdout : Bool := false
  stderr : Bool := false
deriving DecidableEq, Repr

/-- Models `CommandPrint::print_before`, line for line the same formatting as
`CommandLog::log_before` with boolean gates. -/
def CommandPrint.print_before (l : CommandPrint) (c : Command) : List PrintRec :=
  (if l.args then
    [⟨Channel.args, "args: " ++ c.get_program ++ " " ++ joinSpace c.get_args⟩]
   else []) ++
  (if l.envs then
    c.get_envs.map (fun kv =>
      ⟨Channel.envs, "envs: " ++ kv.1 ++ "=" ++ kv.2.getD ""⟩)
   else []) ++
  (if l.current_dir then
    [⟨Channel.current_dir, "current_dir: " ++ c.get_current_dir.getD ""⟩]
   else [])

/-- Models `CommandPrint::after_output`. -/
def CommandPrint.after_output (l : CommandPrint) (r : Except IOError Output) :
    List PrintRec :=
  match r with
  | .error _ => []
  | .ok o =>
    (if l.status then [⟨Channel.status, "status: " ++ o.status.display⟩] else []) ++
    (if l.stdout then
      if (fromUtf8Lossy o.stdout).trim = "" then []
      else [⟨Channel.stdout, "stdout: " ++ (fromUtf8Lossy o.stdout).trim⟩]
     else []) ++
    (if l.stderr then
      if (fromUtf8Lossy o.stderr).trim = "" then []
      else [⟨Channel.stderr, "stderr: " ++ (fromUtf8Lossy o.stderr).trim⟩]
     else [])

/-- Models `CommandPrint::after_status`. -/
def CommandPrint.after_status (l : CommandPrint) (r : Except IOError ExitStatus) :
    List PrintRec :=
  match r with
  | .error _ => []
  | .ok st =>
    if l.status then [⟨Channel.status, "status: " ++ st.display⟩] else []

/-- The `CommandWrap` implementation of `CommandPrint`, mirroring
`logHooks`. -/
def printHooks (l : CommandPrint) : HookImpl (List PrintRec) where
  onSpawn := fun s c => (s ++ l.print_before c, c)
  onOutput := fun s c => (s ++ l.print_before c, c)
  onStatus := fun s c => (s ++ l.print_before c, c)
  afterOutput := fun s c r => (s ++ l.after_output r, c)
  afterStatus := fun s c r => (s ++ l.after_status r, c)

/-- Models the per-channel severity configuration of `CommandTrace`
(src/trace/mod.rs); `none` is the builder default (channel disabled). -/
structure CommandTrace where
  args : Option TraceLevel := none
  envs : Option TraceLevel := none
  current_dir : Option TraceLevel := none
  status : Option TraceLevel := none
  stdout : Option TraceLevel := none
  stderr : Option TraceLevel := none
deriving DecidableEq, Repr

/-- Models `CommandTrace::trace_before`, line for line the same formatting as
`CommandLog::log_before` targeting the tracing sink. -/
def CommandTrace.trace_before (l : CommandTrace) (c : Command) : List TraceRec :=
  (match l.args with
   | some lv => [⟨Channel.args, lv, "args: " ++ c.get_program ++ " " ++ joinSpace c.get_args⟩]
   | none => []) ++
  (match l.envs with
   | some lv => c.get_envs.map (fun kv =>
       ⟨Channel.envs, lv, "envs: " ++ kv.1 ++ "=" ++ kv.2.getD ""⟩)
   | none => []) ++
  (match l.current_dir with
   | some lv => [⟨Channel.current_dir, lv, "current_dir: " ++ c.get_current_dir.getD ""⟩]
   | none => [])

/-- Models `CommandTrace::after_output`. -/
def CommandTrace.after_output (l : CommandTrace) (r : Except IOError Output) :
    List TraceRec :=
  match r with
  | .error _ => []
  | .ok o =>
    (match l.status with
     | some lv => [⟨Channel.status, lv, "status: " ++ o.status.display⟩]
     | none => []) ++
    (match l.stdout with
     | some lv =>
       if (fromUtf8Lossy o.stdout).trim = "" then []
       else [⟨Channel.stdout, lv, "stdout: " ++ (fromUtf8Lossy o.stdout).trim⟩]
     | none => []) ++
    (match l.stderr with
     | some lv =>
       if (fromUtf8Lossy o.stderr).trim = "" then []
       else [⟨Channel.stderr, lv, "stderr: " ++ (fromUtf8Lossy o.stderr).trim⟩]
     | none => [])

/-- Models `CommandTrace::after_status`. -/
def CommandTrace.after_status (l : CommandTrace) (r : Except IOError ExitStatus) :
    List TraceRec :=
  match r with
  | .error _ => []
  | .ok st =>
    match l.status with
    | some lv => [⟨Channel.status, lv, "status: " ++ st.display⟩]
    | none => []

/-- The `CommandWrap` implementation of `CommandTrace`, mirroring
`logHooks`. -/
def traceHooks (l : CommandTrace) : HookImpl (List TraceRec) where
  onSpawn := fun s c => (s ++ l.trace_before c, c)
  onOutput := fun s c => (s ++ l.trace_before c, c)
  onStatus := fun s c => (s ++ l.trace_before c, c)
  afterOutput := fun s c r => (s ++ l.after_output r, c)
  afterStatus := fun s c r => (s ++ l.after_status r, c)

/-- Spec-side replay (claim C8): the arguments one builder call contributes. -/
def argPayload : BuilderOp → List String
  | .arg a => [a]
  | .args as => as
  | _ => []

/-- Spec-side replay (claim C8): the net argument list implied by replaying a
configuration sequence in order, written from the spec's words, independently
of the `Command` data structure. -/
def specArgs (ops : List BuilderOp) : List String :=
  ops.foldl (fun acc op => acc ++ argPayload op) []

/-- Spec-side replay (claim C8), one step: the working directory after one
builder call — a `current_dir` call overrides, everything else keeps. -/
def cwdStep (acc : Option String) : BuilderOp → Option String
  | .current_dir d => some d
  | _ => acc

/-- Spec-side replay (claim C8): the net working-directory override implied
by replaying a configuration sequence in order. -/
def specCwd (ops : List BuilderOp) : Option String :=
  ops.foldl cwdStep none

/-- Spec-side replay (claim C8), one step for one key: tracks whether
`env_clear` has happened and the key's net state — `none` absent/inherited,
`some none` explicitly unset, `some (some v)` explicitly set. -/
def specEnvStep (k : String) (acc : Bool × Option (Option String)) :
    BuilderOp → Bool × Option (Option String)
  | .env k2 v => (acc.1, if k2 = k then some (some v) else acc.2)
  | .envs kvs =>
    (acc.1, kvs.foldl (fun st kv => if kv.1 = k then some (some kv.2) else st) acc.2)
  | .env_remove k2 =>
    (acc.1, if k2 = k then (if acc.1 then none else some none) else acc.2)
  | .env_clear => (true, none)
  | _ => acc

/-- Spec-side replay (claim C8): the net state of one environment key implied
by replaying a configuration sequence in order. -/
def specEnv (ops : List BuilderOp) (k : String) : Option (Option String) :=
  (ops.foldl (specEnvStep k) (false, none)).2

/-- With every hook left at its default no-op body, one builder call through
the protocol is exactly the direct platform mutation. -/
theorem runOp_default (σ : Type) (w : Wrapper σ) (op : BuilderOp) :
    runOp (defaultHooks σ) w op = ⟨w.state, applyOp w.cmd op⟩ := by
  cases op <;> rfl

/-- With every hook left at its default no-op body, replaying a configuration
sequence through the protocol is exactly the direct platform replay. -/
theorem runOps_default (σ : Type) (ops : List BuilderOp) :
    ∀ (s : σ) (c : Command),
      runOps (defaultHooks σ) ⟨s, c⟩ ops = ⟨s, applyOps c ops⟩ := by
  induction ops with
  | nil => intro s c; rfl
  | cons op rest ih =>
    intro s c
    simp only [runOps, applyOps, List.foldl_cons]
    rw [show List.foldl (runOp (defaultHooks σ)) (runOp (defaultHooks σ) ⟨s, c⟩ op) rest
        = runOps (defaultHooks σ) (runOp (defaultHooks σ) ⟨s, c⟩ op) rest from rfl,
      runOp_default]
    exact ih s (applyOp c op)

/-- Lookup after sorted insertion: the inserted key reads back as the new
value, every other key is untouched. -/
theorem envLookup_envInsert (l : List (String × Option String)) (k k' : String)
    (v : Option String) :
    envLookup (envInsert l k v) k' = if k = k' then some v else envLookup l k' := by
  induction l with
  | nil => simp [envInsert, envLookup]
  | cons hd tl ih =>
    obtain ⟨k1, v1⟩ := hd
    by_cases h1 : k < k1
    · simp [envInsert, h1, envLookup]
    · by_cases h2 : k = k1
      · subst h2
        simp only [envInsert, if_neg h1, if_pos rfl, envLookup]
        by_cases h3 : k = k'
        · simp [h3]
        · simp [h3]
      · simp only [envInsert, if_neg h1, if_neg h2, envLookup]
        by_cases h3 : k1 = k'
        · have : ¬ k = k' := fun h => h2 (h.trans h3.symm)
          simp [h3, this]
        · simp [h3, ih]

/-- Lookup after deletion: the deleted key reads back as absent, every other
key is untouched. -/
theorem envLookup_envDelete (l : List (String × Option String)) (k k' : String) :
    envLookup (envDelete l k) k' = if k = k' then none else envLookup l k' := by
  induction l with
  | nil => simp [envDelete, envLookup]
  | cons hd tl ih =>
    obtain ⟨k1, v1⟩ := hd
    by_cases h1 : k = k1
    · subst h1
      rw [show envDelete ((k, v1) :: tl) k = envDelete tl k from by simp [envDelete], ih]
      by_cases h3 : k = k'
      · simp [h3]
      · simp [envLookup, h3]
    · simp only [envDelete, if_neg h1, envLookup]
      by_cases h3 : k1 = k'
      · have h4 : ¬ k = k' := fun h => h1 (h.trans h3.symm)
        simp [h3, h4]
      · simp [h3, ih]

/-- `Command::envs` only touches the environment map: program, arguments,
working directory, env-cleared flag and stdio targets are preserved. -/
theorem envsOp_preserve (kvs : List (String × String)) :
    ∀ c : Command,
      (c.envsOp kvs).program = c.program ∧ (c.envsOp kvs).argv = c.argv ∧
      (c.envsOp kvs).cwd = c.cwd ∧ (c.envsOp kvs).envCleared = c.envCleared := by
  induction kvs with
  | nil => exact fun c => ⟨rfl, rfl, rfl, rfl⟩
  | cons kv rest ih => exact fun c => ih (c.envOp kv.1 kv.2)

/-- Per-key view of `Command::envs`: a fold of single insertions. -/
theorem envsOp_envLookup (kvs : List (String × String)) :
    ∀ (c : Command) (k : String),
      envLookup (c.envsOp kvs).envVars k
        = kvs.foldl (fun st kv => if kv.1 = k then some (some kv.2) else st)
            (envLookup c.envVars k) := by
  induction kvs with
  | nil => intro c k; rfl
  | cons kv rest ih =>
    intro c k
    have step : envLookup (c.envOp kv.1 kv.2).envVars k
        = if kv.1 = k then some (some kv.2) else envLookup c.envVars k := by
      simp [Command.envOp, envLookup_envInsert]
    calc envLookup (Command.envsOp c (kv :: rest)).envVars k
        = envLookup (Command.envsOp (c.envOp kv.1 kv.2) rest).envVars k := rfl
      _ = rest.foldl (fun st kv2 => if kv2.1 = k then some (some kv2.2) else st)
            (envLookup (c.envOp kv.1 kv.2).envVars k) := ih _ k
      _ = _ := by rw [step]; rfl

/-- One direct builder step preserves the env-cleared flag exactly as the
spec-side replay step does. -/
theorem applyOp_envFlag (c : Command) (op : BuilderOp) (k : String)
    (x : Option (Option String)) :
    (applyOp c op).envCleared = (specEnvStep k (c.envCleared, x) op).1 := by
  cases op with
  | envs kvs => exact (envsOp_preserve kvs c).2.2.2
  | env_remove k2 =>
    by_cases hc : c.envCleared <;>
      simp [applyOp, Command.envRemoveOp, hc, specEnvStep]
  | _ => rfl

/-- One direct builder step changes the per-key environment view exactly as
the spec-side replay step does. -/
theorem applyOp_envLookup (c : Command) (op : BuilderOp) (k : String) :
    envLookup (applyOp c op).envVars k
      = (specEnvStep k (c.envCleared, envLookup c.envVars k) op).2 := by
  cases op with
  | env k2 v => simp [applyOp, Command.envOp, specEnvStep, envLookup_envInsert]
  | envs kvs => exact envsOp_envLookup kvs c k
  | env_remove k2 =>
    by_cases hc : c.envCleared
    · simp [applyOp, Command.envRemoveOp, hc, specEnvStep, envLookup_envDelete]
    · simp [applyOp, Command.envRemoveOp, hc, specEnvStep, envLookup_envInsert]
  | env_clear => rfl
  | _ => rfl

/-- Direct replay refines the spec-side per-key environment replay, in flag
and in lookup simultaneously. -/
theorem applyOps_envPair (ops : List BuilderOp) :
    ∀ (c : Command) (k : String),
      (applyOps c ops).envCleared
          = (ops.foldl (specEnvStep k) (c.envCleared, envLookup c.envVars k)).1 ∧
        envLookup (applyOps c ops).envVars k
          = (ops.foldl (specEnvStep k) (c.envCleared, envLookup c.envVars k)).2 := by
  induction ops with
  | nil => exact fun c k => ⟨rfl, rfl⟩
  | cons op rest ih =>
    intro c k
    obtain ⟨ih1, ih2⟩ := ih (applyOp c op) k
    have hpair : specEnvStep k (c.envCleared, envLookup c.envVars k) op
        = ((applyOp c op).envCleared, envLookup (applyOp c op).envVars k) := by
      rw [Prod.ext_iff]
      exact ⟨(applyOp_envFlag c op k (envLookup c.envVars k)).symm,
        (applyOp_envLookup c op k).symm⟩
    constructor
    · calc (applyOps c (op :: rest)).envCleared
          = (applyOps (applyOp c op) rest).envCleared := rfl
        _ = (rest.foldl (specEnvStep k)
              ((applyOp c op).envCleared, envLookup (applyOp c op).envVars k)).1 := ih1
        _ = _ := by rw [← hpair]; rfl
    · calc envLookup (applyOps c (op :: rest)).envVars k
          = envLookup (applyOps (applyOp c op) rest).envVars k := rfl
        _ = (rest.foldl (specEnvStep k)
              ((applyOp c op).envCleared, envLookup (applyOp c op).envVars k)).2 := ih2
        _ = _ := by rw [← hpair]; rfl

/-- One direct builder step appends exactly its argument payload. -/
theorem applyOp_argv (c : Command) (op : BuilderOp) :
    (applyOp c op).argv = c.argv ++ argPayload op := by
  cases op with
  | envs kvs =>
    calc (applyOp c (BuilderOp.envs kvs)).argv
        = (c.envsOp kvs).argv := rfl
      _ = c.argv := (envsOp_preserve kvs c).2.1
      _ = c.argv ++ argPayload (BuilderOp.envs kvs) := by simp [argPayload]
  | arg a => rfl
  | args as => rfl
  | env_remove k2 =>
    by_cases hc : c.envCleared <;>
      simp [applyOp, Command.envRemoveOp, hc, argPayload]
  | _ => simp [applyOp, argPayload, Command.envOp,
      Command.envClearOp, Command.currentDirOp, Command.stdinOp,
      Command.stdoutOp, Command.stderrOp]

/-- The argument fold starting from any accumulator factors through the fold
from the empty list. -/
theorem specArgs_from (ops : List BuilderOp) :
    ∀ acc : List String,
      ops.foldl (fun a op => a ++ argPayload op) acc = acc ++ specArgs ops := by
  induction ops with
  | nil => intro acc; simp [specArgs]
  | cons op rest ih =>
    intro acc
    simp only [specArgs, List.foldl_cons, List.nil_append] at *
    rw [ih (acc ++ argPayload op), ih (argPayload op), List.append_assoc]

/-- Direct replay refines the spec-side argument replay. -/
theorem applyOps_argv (ops : List BuilderOp) :
    ∀ c : Command, (applyOps c ops).argv = c.argv ++ specArgs ops := by
  induction ops with
  | nil => intro c; simp [applyOps, specArgs]
  | cons op rest ih =>
    intro c
    calc (applyOps c (op :: rest)).argv
        = (applyOps (applyOp c op) rest).argv := rfl
      _ = (applyOp c op).argv ++ specArgs rest := ih _
      _ = c.argv ++ argPayload op ++ specArgs rest := by rw [applyOp_argv]
      _ = c.argv ++ specArgs (op :: rest) := by
          have hcons : specArgs (op :: rest) = argPayload op ++ specArgs rest := by
            simp only [specArgs, List.foldl_cons, List.nil_append]
            exact specArgs_from rest (argPayload op)
          rw [hcons, List.append_assoc]

/-- No builder step changes the program. -/
theorem applyOp_program (c : Command) (op : BuilderOp) :
    (applyOp c op).program = c.program := by
  cases op with
  | envs kvs => exact (envsOp_preserve kvs c).1
  | env_remove k2 =>
    by_cases hc : c.envCleared <;>
      simp [applyOp, Command.envRemoveOp, hc]
  | _ => rfl

/-- Direct replay never changes the program. -/
theorem applyOps_program (ops : List BuilderOp) :
    ∀ c : Command, (applyOps c ops).program = c.program := by
  induction ops with
  | nil => intro c; rfl
  | cons op rest ih =>
    intro c
    calc (applyOps c (op :: rest)).program
        = (applyOps (applyOp c op) rest).program := rfl
      _ = (applyOp c op).program := ih _
      _ = c.program := applyOp_program c op

/-- One direct builder step changes the working directory exactly as the
spec-side replay step does. -/
theorem applyOp_cwd (c : Command) (op : BuilderOp) :
    (applyOp c op).cwd = cwdStep c.cwd op := by
  cases op with
  | envs kvs => exact (envsOp_preserve kvs c).2.2.1
  | env_remove k2 =>
    by_cases hc : c.envCleared <;>
      simp [applyOp, Command.envRemoveOp, hc, cwdStep]
  | _ => rfl

/-- Direct replay refines the spec-side working-directory replay. -/
theorem applyOps_cwd (ops : List BuilderOp) :
    ∀ c : Command, (applyOps c ops).cwd = ops.foldl cwdStep c.cwd := by
  induction ops with
  | nil => intro c; rfl
  | cons op rest ih =>
    intro c
    calc (applyOps c (op :: rest)).cwd
        = (applyOps (applyOp c op) rest).cwd := rfl
      _ = rest.foldl cwdStep (applyOp c op).cwd := ih _
      _ = _ := by rw [applyOp_cwd]; rfl

/-- Claim C1. The claim states that every builder method — `args` included —
fires its corresponding pre-hook before applying the mutation. Evaluating
the source of `CommandWrap::args` under the recording wrapper shows
otherwise: `args(["-l", "-a"])` appends the arguments to the command and
returns the wrapper, but records no `on_args` invocation at all, while
`arg("-l")` does record its `on_arg` invocation. -/
theorem c1_args_applies_mutation_without_firing_on_args :
    (CommandWrap.args obsHooks ⟨[], Command.new "echo"⟩ ["-l", "-a"]).state = [] ∧
    (CommandWrap.args obsHooks ⟨[], Command.new "echo"⟩ ["-l", "-a"]).cmd.get_args
      = ["-l", "-a"] ∧
    (CommandWrap.arg obsHooks ⟨[], Command.new "echo"⟩ "-l").state
      = [HookCall.onArg (Command.new "echo") "-l"] :=
  ⟨rfl, rfl, rfl⟩

/-- Claim C2. `check` executes the command through the capture-output
terminal action and classifies the result in exactly one of three ways:
the platform error is wrapped as `StdIoError` when the process could not be
created; the full captured output is returned on a success exit status; and
a `Check` error carrying the exit status and the lossy-UTF-8-decoded stdout
and stderr text is returned on a non-success exit status. -/
theorem c2_check_classifies_in_three_ways
    (plat : Command → Except IOError Output) (c : Command) :
    (∀ e, plat c = Except.error e →
      check plat c = Except.error (CommandExtError.StdIoError e)) ∧
    (∀ o, plat c = Except.ok o → o.status.success = true →
      check plat c = Except.ok o) ∧
    (∀ o, plat c = Except.ok o → o.status.success = false →
      check plat c = Except.error (CommandExtError.Check o.status
        (fromUtf8Lossy o.stdout) (fromUtf8Lossy o.stderr))) := by
  refine ⟨?_, ?_, ?_⟩
  · intro e h
    simp [check, h]
  · intro o h hs
    simp [check, h, hs]
  · intro o h hs
    simp [check, h, hs]

/-- Witness for claim C2: a process that completes with exit status 1 and
empty streams is classified as a `Check` failure. -/
theorem c2_check_classifies_in_three_ways_witness :
    check (fun _ => Except.ok ⟨⟨false, 1⟩, [], []⟩) (Command.new "false")
      = Except.error (CommandExtError.Check ⟨false, 1⟩ "" "") :=
  (c2_check_classifies_in_three_ways (fun _ => Except.ok ⟨⟨false, 1⟩, [], []⟩)
    (Command.new "false")).2.2 ⟨⟨false, 1⟩, [], []⟩ rfl rfl

/-- Claim C3. For every wrapper and every terminal action, the value
returned to the caller is exactly the platform call's result, unchanged by
the hooks; the return type is `Except IOError _`, so no terminal action can
produce a `CommandExtError.Check` classification, and a completed process is
returned as success regardless of its exit status. -/
theorem c3_terminal_actions_return_platform_result_unchanged (σ : Type)
    (H : HookImpl σ) (platS : Command → Except IOError Child)
    (platO : Command → Except IOError Output)
    (platT : Command → Except IOError ExitStatus) (w : Wrapper σ) :
    (CommandWrap.spawn H platS w).2 = platS (H.onSpawn w.state w.cmd).2 ∧
    (CommandWrap.output H platO w).2 = platO (H.onOutput w.state w.cmd).2 ∧
    (CommandWrap.status H platT w).2 = platT (H.onStatus w.state w.cmd).2 ∧
    (∀ o, platO (H.onOutput w.state w.cmd).2 = Except.ok o →
      (CommandWrap.output H platO w).2 = Except.ok o) ∧
    (∀ st, platT (H.onStatus w.state w.cmd).2 = Except.ok st →
      (CommandWrap.status H platT w).2 = Except.ok st) :=
  ⟨rfl, rfl, rfl, fun _ h => h, fun _ h => h⟩

/-- Witness for claim C3: a process that completed with nonzero exit status
is still returned as success by `output`. -/
theorem c3_terminal_actions_return_platform_result_unchanged_witness :
    (CommandWrap.output (defaultHooks Unit)
      (fun _ => Except.ok ⟨⟨false, 7⟩, [], []⟩) ⟨(), Command.new "false"⟩).2
      = Except.ok ⟨⟨false, 7⟩, [], []⟩ :=
  (c3_terminal_actions_return_platform_result_unchanged Unit (defaultHooks Unit)
    (fun _ => Except.error ⟨2, "ENOENT"⟩) (fun _ => Except.ok ⟨⟨false, 7⟩, [], []⟩)
    (fun _ => Except.error ⟨2, "ENOENT"⟩)
    ⟨(), Command.new "false"⟩).2.2.2.1 ⟨⟨false, 7⟩, [], []⟩ rfl

/-- Claim C4. A wrapper whose hooks are all the default no-ops is
observationally identical to the platform primitive: any configuration
sequence yields exactly the directly-configured command (and leaves the
wrapper state untouched), and each terminal action returns exactly what the
platform returns on that command — same status, same captured output, same
success or failure. -/
theorem c4_default_wrapper_equals_platform (σ : Type) (s : σ) (c : Command)
    (ops : List BuilderOp) (platS : Command → Except IOError Child)
    (platO : Command → Except IOError Output)
    (platT : Command → Except IOError ExitStatus) :
    (runOps (defaultHooks σ) ⟨s, c⟩ ops).cmd = applyOps c ops ∧
    (runOps (defaultHooks σ) ⟨s, c⟩ ops).state = s ∧
    (CommandWrap.spawn (defaultHooks σ) platS
      (runOps (defaultHooks σ) ⟨s, c⟩ ops)).2 = platS (applyOps c ops) ∧
    (CommandWrap.output (defaultHooks σ) platO
      (runOps (defaultHooks σ) ⟨s, c⟩ ops)).2 = platO (applyOps c ops) ∧
    (CommandWrap.status (defaultHooks σ) platT
      (runOps (defaultHooks σ) ⟨s, c⟩ ops)).2 = platT (applyOps c ops) := by
  have h := runOps_default σ ops s c
  refine ⟨by rw [h], by rw [h], by rw [h]; rfl, by rw [h]; rfl, by rw [h]; rfl⟩

/-- Claim C5. Each pre-hook that a builder method fires receives, through
the wrapper's command accessor, exactly the command state from before that
method's mutation: running any hook-firing builder method under the
recording wrapper records the pre-mutation command (`w.cmd`) and only then
applies the mutation. (`args` fires no pre-hook at all, so it is covered
vacuously.) -/
theorem c5_prehooks_observe_state_before_mutation
    (w : Wrapper (List HookCall)) (a k v d : String)
    (kvs : List (String × String)) (cfg : Stdio) :
    (CommandWrap.arg obsHooks w a).state = w.state ++ [HookCall.onArg w.cmd a] ∧
    (CommandWrap.arg obsHooks w a).cmd = w.cmd.argOp a ∧
    (CommandWrap.env obsHooks w k v).state = w.state ++ [HookCall.onEnv w.cmd k v] ∧
    (CommandWrap.env obsHooks w k v).cmd = w.cmd.envOp k v ∧
    (CommandWrap.envs obsHooks w kvs).state = w.state ++ [HookCall.onEnvs w.cmd kvs] ∧
    (CommandWrap.envs obsHooks w kvs).cmd = w.cmd.envsOp kvs ∧
    (CommandWrap.env_remove obsHooks w k).state
      = w.state ++ [HookCall.onEnvRemove w.cmd k] ∧
    (CommandWrap.env_remove obsHooks w k).cmd = w.cmd.envRemoveOp k ∧
    (CommandWrap.env_clear obsHooks w).state
      = w.state ++ [HookCall.onEnvClear w.cmd] ∧
    (CommandWrap.env_clear obsHooks w).cmd = w.cmd.envClearOp ∧
    (CommandWrap.current_dir obsHooks w d).state
      = w.state ++ [HookCall.onCurrentDir w.cmd d] ∧
    (CommandWrap.current_dir obsHooks w d).cmd = w.cmd.currentDirOp d ∧
    (CommandWrap.stdin obsHooks w cfg).state
      = w.state ++ [HookCall.onStdin w.cmd cfg] ∧
    (CommandWrap.stdin obsHooks w cfg).cmd = w.cmd.stdinOp cfg ∧
    (CommandWrap.stdout obsHooks w cfg).state
      = w.state ++ [HookCall.onStdout w.cmd cfg] ∧
    (CommandWrap.stdout obsHooks w cfg).cmd = w.cmd.stdoutOp cfg ∧
    (CommandWrap.stderr obsHooks w cfg).state
      = w.state ++ [HookCall.onStderr w.cmd cfg] ∧
    (CommandWrap.stderr obsHooks w cfg).cmd = w.cmd.stderrOp cfg :=
  ⟨rfl, rfl, rfl, rfl, rfl, rfl, rfl, rfl, rfl, rfl, rfl, rfl, rfl, rfl, rfl, rfl,
    rfl, rfl⟩

/-- Claim C6. For each of the three observers with the stdout or stderr
channel enabled, after a successful capture-output action: if the captured
stream trims to empty, the channel emits nothing; otherwise it emits exactly
one record containing exactly the trimmed content. -/
theorem c6_stream_channels_trim_and_suppress
    (a e cd st so se : Option Level) (lv : Level)
    (pa pe pcd pst pso pse : Bool)
    (ta te tcd tst tso tse : Option TraceLevel) (tv : TraceLevel) (o : Output) :
    logOnChannel Channel.stdout
        (CommandLog.after_output ⟨a, e, cd, st, some lv, se⟩ (Except.ok o))
      = (if (fromUtf8Lossy o.stdout).trim = "" then []
         else [⟨Channel.stdout, lv, "stdout: " ++ (fromUtf8Lossy o.stdout).trim⟩]) ∧
    logOnChannel Channel.stderr
        (CommandLog.after_output ⟨a, e, cd, st, so, some lv⟩ (Except.ok o))
      = (if (fromUtf8Lossy o.stderr).trim = "" then []
         else [⟨Channel.stderr, lv, "stderr: " ++ (fromUtf8Lossy o.stderr).trim⟩]) ∧
    printOnChannel Channel.stdout
        (CommandPrint.after_output ⟨pa, pe, pcd, pst, true, pse⟩ (Except.ok o))
      = (if (fromUtf8Lossy o.stdout).trim = "" then []
         else [⟨Channel.stdout, "stdout: " ++ (fromUtf8Lossy o.stdout).trim⟩]) ∧
    printOnChannel Channel.stderr
        (CommandPrint.after_output ⟨pa, pe, pcd, pst, pso, true⟩ (Except.ok o))
      = (if (fromUtf8Lossy o.stderr).trim = "" then []
         else [⟨Channel.stderr, "stderr: " ++ (fromUtf8Lossy o.stderr).trim⟩]) ∧
    traceOnChannel Channel.stdout
        (CommandTrace.after_output ⟨ta, te, tcd, tst, some tv, tse⟩ (Except.ok o))
      = (if (fromUtf8Lossy o.stdout).trim = "" then []
         else [⟨Channel.stdout, tv, "stdout: " ++ (fromUtf8Lossy o.stdout).trim⟩]) ∧
    traceOnChannel Channel.stderr
        (CommandTrace.after_output ⟨ta, te, tcd, tst, tso, some tv⟩ (Except.ok o))
      = (if (fromUtf8Lossy o.stderr).trim = "" then []
         else [⟨Channel.stderr, tv, "stderr: " ++ (fromUtf8Lossy o.stderr).trim⟩]) := by
  refine ⟨?_, ?_, ?_, ?_, ?_, ?_⟩
  · cases st <;> cases se <;>
      by_cases h1 : (fromUtf8Lossy o.stdout).trim = "" <;>
        by_cases h2 : (fromUtf8Lossy o.stderr).trim = "" <;>
          simp [CommandLog.after_output, logOnChannel, List.filter_append, h1, h2,
            List.filter]
  · cases st <;> cases so <;>
      by_cases h1 : (fromUtf8Lossy o.stdout).trim = "" <;>
        by_cases h2 : (fromUtf8Lossy o.stderr).trim = "" <;>
          simp [CommandLog.after_output, logOnChannel, List.filter_append, h1, h2,
            List.filter]
  · cases pst <;> cases pse <;>
      by_cases h1 : (fromUtf8Lossy o.stdout).trim = "" <;>
        by_cases h2 : (fromUtf8Lossy o.stderr).trim = "" <;>
          simp [CommandPrint.after_output, printOnChannel, List.filter_append, h1, h2,
            List.filter]
  · cases pst <;> cases pso <;>
      by_cases h1 : (fromUtf8Lossy o.stdout).trim = "" <;>
        by_cases h2 : (fromUtf8Lossy o.stderr).trim = "" <;>
          simp [CommandPrint.after_output, printOnChannel, List.filter_append, h1, h2,
            List.filter]
  · cases tst <;> cases tse <;>
      by_cases h1 : (fromUtf8Lossy o.stdout).trim = "" <;>
        by_cases h2 : (fromUtf8Lossy o.stderr).trim = "" <;>
          simp [CommandTrace.after_output, traceOnChannel, List.filter_append, h1, h2,
            List.filter]
  · cases tst <;> cases tso <;>
      by_cases h1 : (fromUtf8Lossy o.stdout).trim = "" <;>
        by_cases h2 : (fromUtf8Lossy o.stderr).trim = "" <;>
          simp [CommandTrace.after_output, traceOnChannel, List.filter_append, h1, h2,
            List.filter]

/-- Claim C7. For each of the three observers, every terminal action
(`spawn`, `output`, `status`) re-derives and emits the pre-execution block
(`log_before`/`print_before`/`trace_before` on the owned command); terminal
actions leave the command unchanged, so invoking a second terminal action on
the same configured wrapper emits the very same pre-execution block again;
and with the args or current_dir channel enabled the block contains exactly
one record for that channel. -/
theorem c7_before_channels_fire_per_terminal_action
    (l : CommandLog) (pcfg : CommandPrint) (tcfg : CommandTrace)
    (esL : List LogRec) (esP : List PrintRec) (esT : List TraceRec) (c : Command)
    (platS : Command → Except IOError Child)
    (platO : Command → Except IOError Output)
    (platT : Command → Except IOError ExitStatus)
    (lv : Level) (a2 e cd st so se : Option Level) :
    (CommandWrap.spawn (logHooks l) platS ⟨esL, c⟩).1.state
      = esL ++ l.log_before c ∧
    (CommandWrap.output (logHooks l) platO ⟨esL, c⟩).1.state
      = esL ++ l.log_before c ++ l.after_output (platO c) ∧
    (CommandWrap.status (logHooks l) platT ⟨esL, c⟩).1.state
      = esL ++ l.log_before c ++ l.after_status (platT c) ∧
    (CommandWrap.output (logHooks l) platO ⟨esL, c⟩).1.cmd = c ∧
    (CommandWrap.status (logHooks l) platT
        ((CommandWrap.output (logHooks l) platO ⟨esL, c⟩).1)).1.state
      = (CommandWrap.output (logHooks l) platO ⟨esL, c⟩).1.state
          ++ l.log_before c ++ l.after_status (platT c) ∧
    logOnChannel Channel.args (CommandLog.log_before ⟨some lv, e, cd, st, so, se⟩ c)
      = [⟨Channel.args, lv, "args: " ++ c.get_program ++ " " ++ joinSpace c.get_args⟩] ∧
    logOnChannel Channel.current_dir
        (CommandLog.log_before ⟨a2, e, some lv, st, so, se⟩ c)
      = [⟨Channel.current_dir, lv, "current_dir: " ++ c.get_current_dir.getD ""⟩] ∧
    (CommandWrap.spawn (printHooks pcfg) platS ⟨esP, c⟩).1.state
      = esP ++ pcfg.print_before c ∧
    (CommandWrap.output (printHooks pcfg) platO ⟨esP, c⟩).1.state
      = esP ++ pcfg.print_before c ++ pcfg.after_output (platO c) ∧
    (CommandWrap.status (printHooks pcfg) platT
        ((CommandWrap.output (printHooks pcfg) platO ⟨esP, c⟩).1)).1.state
      = (CommandWrap.output (printHooks pcfg) platO ⟨esP, c⟩).1.state
          ++ pcfg.print_before c ++ pcfg.after_status (platT c) ∧
    (CommandWrap.spawn (traceHooks tcfg) platS ⟨esT, c⟩).1.state
      = esT ++ tcfg.trace_before c ∧
    (CommandWrap.output (traceHooks tcfg) platO ⟨esT, c⟩).1.state
      = esT ++ tcfg.trace_before c ++ tcfg.after_output (platO c) ∧
    (CommandWrap.status (traceHooks tcfg) platT
        ((CommandWrap.output (traceHooks tcfg) platO ⟨esT, c⟩).1)).1.state
      = (CommandWrap.output (traceHooks tcfg) platO ⟨esT, c⟩).1.state
          ++ tcfg.trace_before c ++ tcfg.after_status (platT c) := by
  refine ⟨rfl, rfl, rfl, rfl, rfl, ?_, ?_, rfl, rfl, rfl, rfl, rfl, rfl⟩
  · cases e <;> cases cd <;>
      simp [CommandLog.log_before, logOnChannel, List.filter_append, List.filter,
        List.filter_map]
  · cases a2 <;> cases e <;>
      simp [CommandLog.log_before, logOnChannel, List.filter_append, List.filter,
        List.filter_map]

/-- Claim C8. Reading the configuration back through the wrapper's accessor
operations after replaying any sequence of builder calls (with the
pass-through default hooks) yields exactly the net configuration of the
spec-side in-order replay: the program is unchanged, the argument list is
the concatenation of all `arg`/`args` payloads, the working directory is the
last `current_dir` override, and each environment key reads back as its net
state — in particular `env("X","1")` followed by `env_remove("X")` reads
back as explicitly unset (`some none`), not as `"1"`. -/
theorem c8_roundtrip_reads_back_net_configuration (σ : Type) (s : σ)
    (p : String) (ops : List BuilderOp) :
    CommandWrap.get_program (runOps (defaultHooks σ) ⟨s, Command.new p⟩ ops) = p ∧
    CommandWrap.get_args (runOps (defaultHooks σ) ⟨s, Command.new p⟩ ops)
      = specArgs ops ∧
    CommandWrap.get_current_dir (runOps (defaultHooks σ) ⟨s, Command.new p⟩ ops)
      = specCwd ops ∧
    (∀ k, envLookup
        (CommandWrap.get_envs (runOps (defaultHooks σ) ⟨s, Command.new p⟩ ops)) k
      = specEnv ops k) ∧
    envLookup (CommandWrap.get_envs (runOps (defaultHooks σ) ⟨s, Command.new "ls"⟩
        [BuilderOp.env "X" "1", BuilderOp.env_remove "X"])) "X" = some none := by
  have h := runOps_default σ ops s (Command.new p)
  refine ⟨?_, ?_, ?_, ?_, ?_⟩
  · rw [show CommandWrap.get_program (runOps (defaultHooks σ) ⟨s, Command.new p⟩ ops)
        = (runOps (defaultHooks σ) ⟨s, Command.new p⟩ ops).cmd.program from rfl, h]
    exact applyOps_program ops (Command.new p)
  · rw [show CommandWrap.get_args (runOps (defaultHooks σ) ⟨s, Command.new p⟩ ops)
        = (runOps (defaultHooks σ) ⟨s, Command.new p⟩ ops).cmd.argv from rfl, h]
    simpa [Command.new] using applyOps_argv ops (Command.new p)
  · rw [show CommandWrap.get_current_dir (runOps (defaultHooks σ) ⟨s, Command.new p⟩ ops)
        = (runOps (defaultHooks σ) ⟨s, Command.new p⟩ ops).cmd.cwd from rfl, h]
    simpa [Command.new, specCwd] using applyOps_cwd ops (Command.new p)
  · intro k
    rw [show CommandWrap.get_envs (runOps (defaultHooks σ) ⟨s, Command.new p⟩ ops)
        = (runOps (defaultHooks σ) ⟨s, Command.new p⟩ ops).cmd.envVars from rfl, h]
    simpa [Command.new, specEnv, envLookup] using (applyOps_envPair ops (Command.new p) k).2
  · simp [runOps, runOp, CommandWrap.env, CommandWrap.env_remove, defaultHooks,
      Command.envOp, Command.envRemoveOp, Command.new, envInsert, envLookup,
      CommandWrap.get_envs, Command.get_envs]

/-- Claim C9. When a terminal action's platform call fails, the
post-execution hooks of all three observers emit nothing at all — no status,
stdout or stderr record — even with every channel enabled. -/
theorem c9_after_hooks_emit_nothing_on_platform_error
    (lL : CommandLog) (lP : CommandPrint) (lT : CommandTrace) (e : IOError) :
    CommandLog.after_output lL (Except.error e) = [] ∧
    CommandLog.after_status lL (Except.error e) = [] ∧
    CommandPrint.after_output lP (Except.error e) = [] ∧
    CommandPrint.after_status lP (Except.error e) = [] ∧
    CommandTrace.after_output lT (Except.error e) = [] ∧
    CommandTrace.after_status lT (Except.error e) = [] :=
  ⟨rfl, rfl, rfl, rfl, rfl, rfl⟩

/-- Claim C10. With the envs channel enabled, an environment key that was
explicitly removed (so it reads back as `none`) is emitted as `key=` with an
empty value — the very same emission as a key explicitly set to the empty
string — rather than being skipped or marked as removed. Holds for all
three observers. -/
theorem c10_removed_env_emitted_as_empty_value
    (a cd st so se : Option Level) (lv : Level)
    (pa pcd pst pso pse : Bool)
    (ta tcd tst tso tse : Option TraceLevel) (tv : TraceLevel) (p k : String) :
    CommandLog.log_before ⟨a, some lv, cd, st, so, se⟩ ((Command.new p).envRemoveOp k)
      = CommandLog.log_before ⟨a, some lv, cd, st, so, se⟩ ((Command.new p).envOp k "") ∧
    logOnChannel Channel.envs
        (CommandLog.log_before ⟨a, some lv, cd, st, so, se⟩ ((Command.new p).envRemoveOp k))
      = [⟨Channel.envs, lv, "envs: " ++ k ++ "="⟩] ∧
    CommandPrint.print_before ⟨pa, true, pcd, pst, pso, pse⟩ ((Command.new p).envRemoveOp k)
      = CommandPrint.print_before ⟨pa, true, pcd, pst, pso, pse⟩ ((Command.new p).envOp k "") ∧
    printOnChannel Channel.envs
        (CommandPrint.print_before ⟨pa, true, pcd, pst, pso, pse⟩ ((Command.new p).envRemoveOp k))
      = [⟨Channel.envs, "envs: " ++ k ++ "="⟩] ∧
    CommandTrace.trace_before ⟨ta, some tv, tcd, tst, tso, tse⟩ ((Command.new p).envRemoveOp k)
      = CommandTrace.trace_before ⟨ta, some tv, tcd, tst, tso, tse⟩ ((Command.new p).envOp k "") ∧
    traceOnChannel Channel.envs
        (CommandTrace.trace_before ⟨ta, some tv, tcd, tst, tso, tse⟩ ((Command.new p).envRemoveOp k))
      = [⟨Channel.envs, tv, "envs: " ++ k ++ "="⟩] := by
  refine ⟨?_, ?_, ?_, ?_, ?_, ?_⟩
  · simp [CommandLog.log_before, Command.envRemoveOp, Command.envOp, Command.new,
      envInsert, Command.get_envs, Command.get_program, Command.get_args,
      Command.get_current_dir]
  · cases a <;> cases cd <;>
      simp [CommandLog.log_before, Command.envRemoveOp, Command.new, envInsert,
        logOnChannel, Command.get_envs, List.filter]
  · simp [CommandPrint.print_before, Command.envRemoveOp, Command.envOp, Command.new,
      envInsert, Command.get_envs, Command.get_program, Command.get_args,
      Command.get_current_dir]
  · cases pa <;> cases pcd <;>
      simp [CommandPrint.print_before, Command.envRemoveOp, Command.new, envInsert,
        printOnChannel, Command.get_envs, List.filter]
  · simp [CommandTrace.trace_before, Command.envRemoveOp, Command.envOp, Command.new,
      envInsert, Command.get_envs, Command.get_program, Command.get_args,
      Command.get_current_dir]
  · cases ta <;> cases tcd <;>
      simp [CommandTrace.trace_before, Command.envRemoveOp, Command.new, envInsert,
        traceOnChannel, Command.get_envs, List.filter]

end CommandExt
